import Mathlib

/-!
Verification of the retry-with-backoff request client and the debounced
autosave/synchronization glue of the python-web-code-executor front-ends.

The embedding below translates, at the event level, the JavaScript of
`src/static/script.js` (the `getSuggestion` exponential-backoff loop, the
`saveEditorContent` / `setupEditorPersistence` Firestore autosave glue and the
`runCode` handler) together with the run-button click handlers of
`src/script.js`, `src/unnamed/part_000` and `src/unnamed/part_001`.

Conventions of the embedding:
* `fetch` and `response.json()` are a single interaction with the environment;
  an attempt's outcome is supplied by an oracle `outcomes : Nat -> AttemptOutcome`
  (1-indexed).  A rejection of either promise lands in the same `catch` block in
  the source, and the source never reads `response.ok` when `response.json()`
  rejected (the `if (response.ok)` line is skipped by the exception), so both
  rejections are one constructor `AttemptOutcome.throws`.
* JavaScript timers are modelled with absolute millisecond deadlines; the
  environment chooses the latency of each Firestore write via `durs`.
* Truthiness of a JavaScript string is `s ≠ ""`; a missing JSON field is
  `Option.none` (or `""` where the source only ever tests truthiness).
-/

/-- Shape of the generative-language API response body that the caller of the
retry loop inspects: `candidates?.[0]?.content?.parts?.[0]?.text` collapsed to
`candidateText`, and `error.message` collapsed to `errorMessage`
(`none` = field absent). -/
structure GeminiBody where
  candidateText : Option String
  errorMessage : Option String
deriving DecidableEq, Repr

/-- Outcome of one iteration's interaction with the network, as the source
observes it: either some awaited promise rejected (`fetch` itself or
`response.json()`; both are caught by the same `catch`), or a response arrived
whose body parsed, carrying the `response.ok` flag. -/
inductive AttemptOutcome where
  | throws
  | respond (ok : Bool) (body : GeminiBody)
deriving DecidableEq, Repr

/-- The JS variable `result` of `getSuggestion`: `undefined` until first
assigned, otherwise a parsed body. -/
inductive JsVal where
  | undef
  | json (body : GeminiBody)
deriving DecidableEq, Repr

/-- The object assigned by the source when the retry budget is exhausted:
`result = (error: (message: "Max retries reached. Could not fetch response."))`. -/
def maxRetriesErrorBody : GeminiBody :=
  { candidateText := none
    errorMessage := some "Max retries reached. Could not fetch response." }

/-- Observable outcome of the whole retry loop of `getSuggestion`
(src/static/script.js lines 299-331). -/
structure RetryRun where
  /-- final value of the JS counter variable `attempts` -/
  attemptsVar : Nat
  /-- number of `fetch` calls performed -/
  calls : Nat
  /-- the backoff sleeps `await new Promise(... setTimeout(..., delay))`, in order -/
  delays : List Nat
  /-- the JS variable `result` when the loop exits -/
  result : JsVal
deriving DecidableEq, Repr

/-- One-to-one translation of the `while (attempts < maxRetries)` loop of
`getSuggestion`.  `fuel` is only a structural-recursion bound: the counter
`attempts` grows by one on every non-breaking iteration, so fuel
`maxRetries + 1` is never exhausted.  The branches:

* `respond true body`: `result = await response.json(); if (response.ok) break;`
  — loop exits with `result` holding the body, counter not incremented.
* `respond false body`: `result` holds the body, no break; then `attempts++`,
  and either a backoff sleep of `Math.pow(2, attempts) * 1000` (generalised to
  `baseDelay * 2 ^ attempts`) when attempts remain, or
  `result = (error: (message: "Max retries reached. ..."))` on the last failure.
* `throws`: the `catch` leaves `result` unchanged; then the same
  `attempts++` / delay-or-overwrite step. -/
def getSuggestionLoop (outcomes : Nat → AttemptOutcome) (maxRetries baseDelay : Nat) :
    Nat → Nat → Nat → List Nat → JsVal → RetryRun
  | 0, attempts, calls, delays, result => ⟨attempts, calls, delays, result⟩
  | fuel+1, attempts, calls, delays, result =>
    if attempts < maxRetries then
      match outcomes (attempts + 1) with
      | .respond true body => ⟨attempts, calls + 1, delays, JsVal.json body⟩
      | .respond false body =>
        if attempts + 1 < maxRetries then
          getSuggestionLoop outcomes maxRetries baseDelay fuel (attempts + 1) (calls + 1)
            (delays ++ [baseDelay * 2 ^ (attempts + 1)]) (JsVal.json body)
        else
          getSuggestionLoop outcomes maxRetries baseDelay fuel (attempts + 1) (calls + 1)
            delays (JsVal.json maxRetriesErrorBody)
      | .throws =>
        if attempts + 1 < maxRetries then
          getSuggestionLoop outcomes maxRetries baseDelay fuel (attempts + 1) (calls + 1)
            (delays ++ [baseDelay * 2 ^ (attempts + 1)]) result
        else
          getSuggestionLoop outcomes maxRetries baseDelay fuel (attempts + 1) (calls + 1)
            delays (JsVal.json maxRetriesErrorBody)
    else ⟨attempts, calls, delays, result⟩

/-- The retry loop entered as the source enters it: `attempts = 0`, no delays
slept, `result` undefined.  The source hardcodes `maxRetries = 3` and a base
delay of `1000` ms; both are parameters here, instantiated below. -/
def getSuggestion (outcomes : Nat → AttemptOutcome) (maxRetries baseDelay : Nat) : RetryRun :=
  getSuggestionLoop outcomes maxRetries baseDelay (maxRetries + 1) 0 0 [] JsVal.undef

/-- `const maxRetries = 3;` in the source. -/
def geminiMaxRetries : Nat := 3

/-- The `* 1000` factor of `Math.pow(2, attempts) * 1000`. -/
def geminiBaseDelayMs : Nat := 1000

/-- Did the attempt return a success (2xx) status?  (`response.ok` reached and
true.) -/
def isOk : AttemptOutcome → Bool
  | .respond true _ => true
  | _ => false

/-- The delays inserted by a run of consecutive failing attempts whose
pre-increment counter values are `a, a+1, ..., a+n-1`:
`baseDelay*2^(a+1), ..., baseDelay*2^(a+n)`. -/
def backoffSeq (baseDelay a : Nat) : Nat → List Nat
  | 0 => []
  | n+1 => baseDelay * 2 ^ (a + 1) :: backoffSeq baseDelay (a + 1) n

/-- An environment whose first attempt throws and whose later attempts return a
success status carrying an application-level `error` field in the body. -/
def appErrorOutcomes : Nat → AttemptOutcome := fun j =>
  if j = 1 then AttemptOutcome.throws
  else AttemptOutcome.respond true ⟨none, some "app error"⟩

/-- An environment where attempts 1 and 2 throw and the final attempt 3 returns
a non-success status whose body carries the distinctive detail
`"quota exceeded"`. -/
def lastDetailOutcomes : Nat → AttemptOutcome := fun j =>
  if j = 3 then AttemptOutcome.respond false ⟨none, some "quota exceeded"⟩
  else AttemptOutcome.throws

/-- `setTimeout(saveEditorContent, 2000)` — the debounce quiet period of the
autosave in `setupEditorPersistence` (src/static/script.js line 600). -/
def debounceMs : Nat := 2000

/-- One `setDoc` call issued by `saveEditorContent`: when it started, the
editor content it captured (`editor.getValue()`), and the latency the remote
store takes to complete it (chosen by the environment). -/
structure WriteRec where
  startMs : Nat
  value : String
  durMs : Nat
deriving DecidableEq, Repr

/-- State of the autosave glue of `setupEditorPersistence`: the editor's
current content, the pending `saveTimeout` deadline in absolute milliseconds
(`none` when no timer is pending), and the `setDoc` calls issued so far, in
order. -/
structure SyncState where
  editorValue : String
  pending : Option Nat
  writes : List WriteRec
deriving DecidableEq, Repr

/-- JavaScript truthiness of a string: `""` is falsy. -/
def truthyStr (s : String) : Bool := s ≠ ""

/-- `saveEditorContent` (src/static/script.js lines 555-571): if `db` and
`userId` are available, read `editor.getValue()` and issue one `setDoc` with it
(`merge: true`); otherwise return without writing.  There is no comparison
against any previously persisted value — the write is unconditional. -/
def saveEditorContent (hasDb : Bool) (startMs durMs : Nat) (s : SyncState) : SyncState :=
  if hasDb then { s with writes := s.writes ++ [⟨startMs, s.editorValue, durMs⟩] } else s

/-- The event loop runs a due `saveTimeout` callback before handling the next
event at time `t`: if the pending deadline `d` has passed (`d ≤ t`), the timer
is consumed and `saveEditorContent` runs, capturing the editor value as of the
fire time.  `durs i` is the environment-chosen latency of the `i`-th write. -/
def fireIfDue (hasDb : Bool) (durs : Nat → Nat) (t : Nat) (s : SyncState) : SyncState :=
  match s.pending with
  | some d =>
    if d ≤ t then saveEditorContent hasDb d (durs s.writes.length) { s with pending := none }
    else s
  | none => s

/-- The `editor.session.on('change', ...)` listener (lines 598-601): the edit
has set the editor content to `v`; `clearTimeout(saveTimeout)` drops any
pending timer and `setTimeout(saveEditorContent, 2000)` arms a fresh one. -/
def onLocalChange (t : Nat) (v : String) (s : SyncState) : SyncState :=
  { s with editorValue := v, pending := some (t + debounceMs) }

/-- The `onSnapshot` callback (lines 584-594): if the document exists and its
`code` field is truthy (JavaScript truthiness — so an empty string is
ignored), and the editor content differs from the saved code, overwrite the
editor content.  The callback does not touch `saveTimeout` or issue writes.
(Any events the editor widget itself may emit on `setValue` are editor-widget
behaviour, a declared non-goal.) -/
def onSnapshotHandler (docExists : Bool) (code : Option String) (s : SyncState) : SyncState :=
  if docExists then
    match code with
    | some savedCode =>
      if truthyStr savedCode then
        if s.editorValue ≠ savedCode then { s with editorValue := savedCode } else s
      else s
    | none => s
  else s

/-- The two external event streams feeding the autosave glue, with absolute
timestamps: a local edit (the `change` event, content now `v`) and a remote
snapshot delivery. -/
inductive SyncEvent where
  | localEdit (t : Nat) (v : String)
  | remoteSnap (t : Nat) (docExists : Bool) (code : Option String)
deriving DecidableEq, Repr

def eventTime : SyncEvent → Nat
  | .localEdit t _ => t
  | .remoteSnap t _ _ => t

/-- Dispatch one event at its timestamp; a due timer callback runs first
(single-threaded event loop, deadlines before the event's time). -/
def stepEvent (hasDb : Bool) (durs : Nat → Nat) (s : SyncState) (e : SyncEvent) : SyncState :=
  match e with
  | .localEdit t v => onLocalChange t v (fireIfDue hasDb durs t s)
  | .remoteSnap t docExists code => onSnapshotHandler docExists code (fireIfDue hasDb durs t s)

/-- After the last event, let a still-pending timer fire at its deadline. -/
def flushTimer (hasDb : Bool) (durs : Nat → Nat) (s : SyncState) : SyncState :=
  match s.pending with
  | some d => fireIfDue hasDb durs d s
  | none => s

/-- Run a schedule of events (timestamps non-decreasing) against a store whose
editor initially holds `v0`, with no timer pending and no writes issued, then
let any remaining timer fire. -/
def runEvents (hasDb : Bool) (durs : Nat → Nat) (v0 : String) (events : List SyncEvent) :
    SyncState :=
  flushTimer hasDb durs (events.foldl (stepEvent hasDb durs) ⟨v0, none, []⟩)

/-- `setupEditorPersistence` (lines 576-605): after registering the snapshot
listener and the change listener it calls `saveEditorContent()` once,
unconditionally — step 3, "Initial save on load (to ensure a document
exists)".  `t0` is the setup time; the bootstrap write is write index 0. -/
def setupAndRun (hasDb : Bool) (durs : Nat → Nat) (t0 : Nat) (v0 : String)
    (events : List SyncEvent) : SyncState :=
  flushTimer hasDb durs
    (events.foldl (stepEvent hasDb durs) (saveEditorContent hasDb t0 (durs 0) ⟨v0, none, []⟩))

/-- `closeChainB tPrev edits`: each edit is no earlier than its predecessor and
strictly less than one debounce interval after it. -/
def closeChainB : Nat → List (Nat × String) → Bool
  | _, [] => true
  | tPrev, (t, _) :: rest =>
    decide (tPrev ≤ t) && decide (t < tPrev + debounceMs) && closeChainB t rest

/-- `timesSortedB t events`: event timestamps are non-decreasing and start no
earlier than `t`. -/
def timesSortedB : Nat → List SyncEvent → Bool
  | _, [] => true
  | t, e :: es => decide (t ≤ eventTime e) && timesSortedB (eventTime e) es

/-- Two `setDoc` calls do not overlap in time (half-open intervals
`[startMs, startMs + durMs)`). -/
def writesDisjoint (w1 w2 : WriteRec) : Prop :=
  w1.startMs + w1.durMs ≤ w2.startMs ∨ w2.startMs + w2.durMs ≤ w1.startMs

instance (w1 w2 : WriteRec) : Decidable (writesDisjoint w1 w2) :=
  inferInstanceAs (Decidable (_ ∨ _))

/-- Timestamp of the last edit of a chain (default `d` when empty). -/
def lastFstD : Nat → List (Nat × String) → Nat
  | d, [] => d
  | _, (t, _) :: rest => lastFstD t rest

/-- Value of the last edit of a chain (default `d` when empty). -/
def lastSndD : String → List (Nat × String) → String
  | d, [] => d
  | _, (_, v) :: rest => lastSndD v rest

/-- Two consecutive writes are separated by at least one debounce interval. -/
def sepRel (w1 w2 : WriteRec) : Prop := w1.startMs + debounceMs ≤ w2.startMs

instance : IsTrans WriteRec sepRel :=
  ⟨fun a b c hab hbc => by unfold sepRel at *; omega⟩

/-- Invariant of the autosave state after the last handled event at time `t`:
writes are chain-separated by the debounce interval, started no later than
`t`, any pending deadline lies at least one interval after every write's
start, and every issued write's latency respects the environment bound. -/
def syncInv (t : Nat) (s : SyncState) : Prop :=
  List.Chain' sepRel s.writes ∧
  (∀ w ∈ s.writes, w.startMs ≤ t) ∧
  (∀ d, s.pending = some d → ∀ w ∈ s.writes, w.startMs + debounceMs ≤ d) ∧
  (∀ w ∈ s.writes, w.durMs ≤ debounceMs)

/-- Result of one `fetch` + `response.json()` in a run-code handler: either a
promise rejected (network failure or non-JSON body — both reach the handler's
`catch`), or a parsed body arrived together with `response.ok` and
`response.statusText`. -/
inductive FetchResult (β : Type) where
  | throws
  | parsed (ok : Bool) (statusText : String) (body : β)
deriving DecidableEq, Repr

/-- The structured error object of `src/script.js`:
`data.error = (type, message, suggestion)`; `suggestion = ""` models a
missing/falsy field. -/
structure ErrShape where
  etype : String
  message : String
  suggestion : String
deriving DecidableEq, Repr

/-- Response body read by `src/script.js`: `data.error` (structured, absent on
success) and `data.output` (`""` models a missing/falsy field). -/
structure BodyA where
  error : Option ErrShape
  output : String
deriving DecidableEq, Repr

/-- Response body read by `src/unnamed/part_000` and `src/unnamed/part_001`:
plain-string `error` and `output` fields (`""` models missing/falsy). -/
structure PlainBody where
  error : String
  output : String
deriving DecidableEq, Repr

/-- UI state touched by the `src/script.js` / `part_000` click handlers:
output text, output css class, status message, and the run button's
`disabled` flag. -/
structure RunUi where
  outputText : String
  outputClass : String
  statusText : String
  runDisabled : Bool
deriving DecidableEq, Repr

/-- The `runButton` click handler of `src/script.js` (lines 10-57): disables
the button, fetches `/run`, renders the structured error or the output, and
re-enables the button in `finally`. -/
def runClickA (o : FetchResult BodyA) : RunUi :=
  let start : RunUi := ⟨"Running code...", "", "Executing...", true⟩
  let afterTry : RunUi :=
    match o with
    | .throws =>
      { start with
          outputText := "Internal Error: Could not connect to the server or unexpected response.",
          outputClass := "error",
          statusText := "Connection Error" }
    | .parsed _ _ body =>
      match body.error with
      | some err =>
        let errorText :=
          "Error (" ++ err.etype ++ "): " ++ err.message ++ "\n" ++
            (if err.suggestion != "" then "\n" ++ err.suggestion else "")
        { start with
            outputText :=
              if body.output != "" then body.output ++ "\n" ++ errorText else errorText,
            outputClass := "error",
            statusText := "Finished with Errors" }
      | none =>
        { start with
            outputText := body.output,
            outputClass := "success",
            statusText := "Execution Complete" }
  { afterTry with runDisabled := false }

/-- The `runButton` click handler of `src/unnamed/part_000` (lines 12-56):
same flow with plain-string `error`, re-enabling the button in `finally`. -/
def runClickB (o : FetchResult PlainBody) : RunUi :=
  let start : RunUi := ⟨"Running code...", "", "Executing...", true⟩
  let afterTry : RunUi :=
    match o with
    | .throws =>
      { start with
          outputText := "Internal Error: Could not connect to the server or unexpected response.",
          outputClass := "error",
          statusText := "Connection Error" }
    | .parsed _ _ body =>
      if body.error != "" then
        { start with
            outputText := body.error,
            outputClass := "error",
            statusText := "Finished with Errors" }
      else
        { start with
            outputText := body.output,
            outputClass := "success",
            statusText := "Execution Complete" }
  { afterTry with runDisabled := false }

/-- JavaScript `String.prototype.includes` for a non-empty pattern: `splitOn`
yields more than one part exactly when the pattern occurs. -/
def jsIncludes (s pat : String) : Bool := (s.splitOn pat).length ≥ 2

/-- `cleanError` of `src/unnamed/part_001` (lines 63-88): each source `if`
returns, so the chain is sequential. -/
def cleanError (errorStr : String) : String :=
  if errorStr = "" then "An unknown error occurred during execution."
  else if jsIncludes errorStr "Execution timed out" then
    "Timeout Error: Code execution exceeded the 5 second limit (likely an infinite loop)."
  else if jsIncludes errorStr "EOFError: EOF when reading a line" then
    "Input Error: Code requested input() but the 'User Input' box was empty. Please provide all necessary input values."
  else if jsIncludes errorStr "NameError" then
    errorStr ++ "\n\nSuggestion: A variable or function was used but not defined. Check for spelling errors or missing initialization."
  else if jsIncludes errorStr "SyntaxError" then
    errorStr ++ "\n\nSuggestion: Check the line number mentioned for incorrect syntax (e.g., missing colon, unmatched parentheses, or incorrect indentation)."
  else if jsIncludes errorStr "TypeError" then
    errorStr ++ "\n\nSuggestion: An operation was attempted on an incompatible type (e.g., adding a string to a number). Check data types."
  else errorStr

/-- UI state touched by the `part_001` handler: output text, css class, run
button `disabled` flag (it has no status line). -/
structure OutUi where
  outputText : String
  outputClass : String
  runDisabled : Bool
deriving DecidableEq, Repr

/-- `runCode` of `src/unnamed/part_001` (lines 93-135): checks `response.ok`,
cleans in-body errors, falls back to `statusText` for HTTP errors, and
re-enables the button in `finally`. -/
def runClickC (o : FetchResult PlainBody) : OutUi :=
  let start : OutUi := ⟨"Executing code...", "", true⟩
  let afterTry : OutUi :=
    match o with
    | .throws =>
      { start with
          outputText := "Network Error: Could not connect to the execution environment.",
          outputClass := "error" }
    | .parsed ok statusText body =>
      if ok then
        if body.error != "" then
          { start with outputText := cleanError body.error, outputClass := "error" }
        else
          { start with outputText := body.output, outputClass := "" }
      else
        { start with
            outputText :=
              "Server Error: " ++ (if body.error != "" then body.error else statusText),
            outputClass := "error" }
  { afterTry with runDisabled := false }

/-- The per-phase analysis strings of the firebase variant's response
(`result.analysis_results`); `""` models a missing/falsy field. -/
structure AnalysisResults where
  lexicalR : String
  syntaxR : String
  semanticR : String
  icgR : String
deriving DecidableEq, Repr

/-- Response body read by `runCode` of the firebase variant
(src/static/script.js lines 483-545). -/
structure BodyD where
  output : String
  error : String
  details : String
  analysisResults : Option AnalysisResults
deriving DecidableEq, Repr

/-- UI state touched by the firebase variant's `runCode`: output text, the
`error` class toggle of `updateOutput`, the run button `disabled` flag and its
label. -/
structure RunButtonUi where
  outputText : String
  outputIsError : Bool
  runDisabled : Bool
  runLabel : String
deriving DecidableEq, Repr

/-- `runCode` of the firebase variant (src/static/script.js lines 483-545):
disables the button, fetches, renders result plus requested analysis
sections, and in `finally` re-enables the button and restores its label. -/
def runClickD (sel : List String) (o : FetchResult BodyD) : RunButtonUi :=
  let start : RunButtonUi := ⟨"কোড এক্সিকিউট হচ্ছে...", false, true, "চলছে..."⟩
  let afterTry : RunButtonUi :=
    match o with
    | .throws =>
      { start with
          outputText := "--- নেটওয়ার্ক এরর ---\nসার্ভারে যোগাযোগ করা যায়নি। আপনার ইন্টারনেট সংযোগ পরীক্ষা করুন অথবা API Endpoint দেখুন।",
          outputIsError := true }
    | .parsed ok _ body =>
      if ok then
        let base := "--- ফলাফল ---\n" ++ body.output
        let text :=
          match body.analysisResults with
          | some ar =>
            if sel.length > 0 then
              base ++ "\n\n--- অ্যানালাইসিস রেজাল্ট ---" ++
                (if sel.contains "lexical" && ar.lexicalR != "" then
                  "\n\n[ Lexical Analysis ]:\n" ++ ar.lexicalR else "") ++
                (if sel.contains "syntax" && ar.syntaxR != "" then
                  "\n\n[ Syntax Analysis ]:\n" ++ ar.syntaxR else "") ++
                (if sel.contains "semantic" && ar.semanticR != "" then
                  "\n\n[ Semantic Analysis ]:\n" ++ ar.semanticR else "") ++
                (if sel.contains "icg" && ar.icgR != "" then
                  "\n\n[ Intermediate Code Generation (ICG) ]:\n" ++ ar.icgR else "")
            else base
          | none => base
        { start with outputText := text, outputIsError := false }
      else
        { start with
            outputText :=
              "--- এরর: " ++ (if body.error != "" then body.error else "Server Execution Failed")
                ++ " ---\n" ++ body.details,
            outputIsError := true }
  { afterTry with runDisabled := false, runLabel := "Run Code" }

theorem backoffSeq_length (baseDelay : Nat) :
    ∀ n a, (backoffSeq baseDelay a n).length = n := by
  intro n
  induction n with
  | zero => intro a; rfl
  | succ n ih => intro a; simp [backoffSeq, ih]

theorem backoffSeq_getElem? (baseDelay : Nat) :
    ∀ n a i, i < n → (backoffSeq baseDelay a n)[i]? = some (baseDelay * 2 ^ (a + 1 + i)) := by
  intro n
  induction n with
  | zero => intro a i h; omega
  | succ n ih =>
    intro a i h
    cases i with
    | zero => simp [backoffSeq]
    | succ i =>
      have h' : i < n := by omega
      have he : a + 1 + 1 + i = a + 1 + (i + 1) := by omega
      simp only [backoffSeq, List.getElem?_cons_succ, ih (a + 1) i h', he]

/-- One-step unfolding of the loop: exactly one `while` iteration. -/
theorem getSuggestionLoop_succ (outcomes : Nat → AttemptOutcome)
    (maxRetries baseDelay fuel attempts calls : Nat) (delays : List Nat) (result : JsVal) :
    getSuggestionLoop outcomes maxRetries baseDelay (fuel + 1) attempts calls delays result =
      if attempts < maxRetries then
        match outcomes (attempts + 1) with
        | .respond true body => ⟨attempts, calls + 1, delays, JsVal.json body⟩
        | .respond false body =>
          if attempts + 1 < maxRetries then
            getSuggestionLoop outcomes maxRetries baseDelay fuel (attempts + 1) (calls + 1)
              (delays ++ [baseDelay * 2 ^ (attempts + 1)]) (JsVal.json body)
          else
            getSuggestionLoop outcomes maxRetries baseDelay fuel (attempts + 1) (calls + 1)
              delays (JsVal.json maxRetriesErrorBody)
        | .throws =>
          if attempts + 1 < maxRetries then
            getSuggestionLoop outcomes maxRetries baseDelay fuel (attempts + 1) (calls + 1)
              (delays ++ [baseDelay * 2 ^ (attempts + 1)]) result
          else
            getSuggestionLoop outcomes maxRetries baseDelay fuel (attempts + 1) (calls + 1)
              delays (JsVal.json maxRetriesErrorBody)
      else ⟨attempts, calls, delays, result⟩ := rfl

/-- If every attempt with index in `[1, maxRetries]` fails (throws or non-2xx),
the loop started at counter value `a` with `maxRetries - a` iterations left
performs those iterations, sleeps the backoff sequence, and exits with the
synthetic max-retries error object. -/
theorem loop_all_fail (outcomes : Nat → AttemptOutcome) (N baseDelay : Nat)
    (hfail : ∀ k, 1 ≤ k → k ≤ N → isOk (outcomes k) = false) :
    ∀ d a, a + d = N → ∀ calls delays result,
      getSuggestionLoop outcomes N baseDelay (d + 1) a calls delays result =
        if d = 0 then ⟨a, calls, delays, result⟩
        else ⟨N, calls + d, delays ++ backoffSeq baseDelay a (d - 1),
              JsVal.json maxRetriesErrorBody⟩ := by
  intro d
  induction d with
  | zero =>
    intro a ha calls delays result
    have hnlt : ¬ a < N := by omega
    rw [getSuggestionLoop_succ, if_neg hnlt, if_pos rfl]
  | succ d ih =>
    intro a ha calls delays result
    have hlt : a < N := by omega
    have hk := hfail (a + 1) (by omega) (by omega)
    rw [getSuggestionLoop_succ, if_pos hlt, if_neg (Nat.succ_ne_zero d)]
    split
    · next body heq =>
        rw [heq] at hk
        simp [isOk] at hk
    · next body heq =>
        by_cases hrem : a + 1 < N
        · obtain ⟨e, rfl⟩ : ∃ e, d = e + 1 := ⟨d - 1, by omega⟩
          rw [if_pos hrem, ih (a + 1) (by omega), if_neg (Nat.succ_ne_zero e)]
          have hcalls : calls + 1 + (e + 1) = calls + (e + 1 + 1) := by omega
          rw [List.append_assoc, List.singleton_append, hcalls]
          rfl
        · have hd0 : d = 0 := by omega
          subst hd0
          rw [if_neg hrem, ih (a + 1) (by omega), if_pos rfl]
          have ha' : a + 1 = N := by omega
          simp [ha', backoffSeq]
    · next heq =>
        by_cases hrem : a + 1 < N
        · obtain ⟨e, rfl⟩ : ∃ e, d = e + 1 := ⟨d - 1, by omega⟩
          rw [if_pos hrem, ih (a + 1) (by omega), if_neg (Nat.succ_ne_zero e)]
          have hcalls : calls + 1 + (e + 1) = calls + (e + 1 + 1) := by omega
          rw [List.append_assoc, List.singleton_append, hcalls]
          rfl
        · have hd0 : d = 0 := by omega
          subst hd0
          rw [if_neg hrem, ih (a + 1) (by omega), if_pos rfl]
          have ha' : a + 1 = N := by omega
          simp [ha', backoffSeq]

/-- If attempts `a+1, ..., k-1` fail and attempt `k` returns a success status
with body `b` (`a + d + 1 = k`, `k ≤ maxRetries`), the loop breaks at attempt
`k` with `result` holding `b`, the counter not incremented past `k - 1`. -/
theorem loop_first_ok (outcomes : Nat → AttemptOutcome) (N baseDelay k : Nat) (b : GeminiBody)
    (hok : outcomes k = AttemptOutcome.respond true b)
    (hpre : ∀ j, 1 ≤ j → j < k → isOk (outcomes j) = false)
    (hkN : k ≤ N) :
    ∀ d a, a + d + 1 = k → ∀ fuel, d + 1 ≤ fuel → ∀ calls delays result,
      getSuggestionLoop outcomes N baseDelay fuel a calls delays result =
        ⟨k - 1, calls + (d + 1), delays ++ backoffSeq baseDelay a d, JsVal.json b⟩ := by
  intro d
  induction d with
  | zero =>
    intro a ha fuel hfuel calls delays result
    obtain ⟨f, rfl⟩ : ∃ f, fuel = f + 1 := ⟨fuel - 1, by omega⟩
    have hlt : a < N := by omega
    have hout : outcomes (a + 1) = AttemptOutcome.respond true b := by
      have : a + 1 = k := by omega
      rw [this, hok]
    rw [getSuggestionLoop_succ, if_pos hlt, hout]
    have hk1 : k - 1 = a := by omega
    simp [hk1, backoffSeq]
  | succ d ih =>
    intro a ha fuel hfuel calls delays result
    obtain ⟨f, rfl⟩ : ∃ f, fuel = f + 1 := ⟨fuel - 1, by omega⟩
    have hlt : a < N := by omega
    have hrem : a + 1 < N := by omega
    have hk := hpre (a + 1) (by omega) (by omega)
    rw [getSuggestionLoop_succ, if_pos hlt]
    split
    · next body heq =>
        rw [heq] at hk
        simp [isOk] at hk
    · next body heq =>
        rw [if_pos hrem, ih (a + 1) (by omega) f (by omega)]
        have hcalls : calls + 1 + (d + 1) = calls + (d + 1 + 1) := by omega
        rw [List.append_assoc, List.singleton_append, hcalls]
        rfl
    · next heq =>
        rw [if_pos hrem, ih (a + 1) (by omega) f (by omega)]
        have hcalls : calls + 1 + (d + 1) = calls + (d + 1 + 1) := by omega
        rw [List.append_assoc, List.singleton_append, hcalls]
        rfl

/-- Top-level run of the retry loop when every attempt fails. -/
theorem getSuggestion_all_fail (outcomes : Nat → AttemptOutcome) (N baseDelay : Nat)
    (hN : 1 ≤ N) (hfail : ∀ k, 1 ≤ k → k ≤ N → isOk (outcomes k) = false) :
    getSuggestion outcomes N baseDelay =
      ⟨N, N, backoffSeq baseDelay 0 (N - 1), JsVal.json maxRetriesErrorBody⟩ := by
  unfold getSuggestion
  rw [loop_all_fail outcomes N baseDelay hfail N 0 (by omega) 0 [] JsVal.undef,
    if_neg (by omega : ¬ N = 0)]
  simp

/-- Top-level run of the retry loop when attempt `k` is the first with a
success status. -/
theorem getSuggestion_first_ok (outcomes : Nat → AttemptOutcome) (N baseDelay k : Nat)
    (b : GeminiBody)
    (hok : outcomes k = AttemptOutcome.respond true b)
    (hpre : ∀ j, 1 ≤ j → j < k → isOk (outcomes j) = false)
    (hk1 : 1 ≤ k) (hkN : k ≤ N) :
    getSuggestion outcomes N baseDelay =
      ⟨k - 1, k, backoffSeq baseDelay 0 (k - 1), JsVal.json b⟩ := by
  unfold getSuggestion
  rw [loop_first_ok outcomes N baseDelay k b hok hpre hkN (k - 1) 0 (by omega) (N + 1)
    (by omega) 0 [] JsVal.undef]
  have hc : 0 + (k - 1 + 1) = k := by omega
  rw [hc]
  simp

/-- An attempt has a success status exactly when it is `respond true _`. -/
theorem isOk_iff_exists (o : AttemptOutcome) :
    isOk o = true ↔ ∃ b, o = AttemptOutcome.respond true b := by
  cases o with
  | throws => simp [isOk]
  | respond ok body => cases ok <;> simp [isOk]

/-- C1: For every `maxRetries = N ≥ 1` and `baseDelayMs > 0`, if every attempt
fails at transport or returns a non-success status, the retry client makes
exactly `N` attempts, exits with the terminal max-retries error result
(`result = (error: (message: "Max retries reached. Could not fetch response."))`,
the code's `MaxRetriesExceeded` failure), and the delay slept before retry
`k+1` is `baseDelayMs * 2^k` for `k = 1, ..., N-1`. -/
theorem c1_retry_exhaustion (outcomes : Nat → AttemptOutcome) (N baseDelay : Nat)
    (hN : 1 ≤ N) (_hbase : 0 < baseDelay)
    (hfail : ∀ k, 1 ≤ k → k ≤ N → isOk (outcomes k) = false) :
    (getSuggestion outcomes N baseDelay).calls = N ∧
    (getSuggestion outcomes N baseDelay).result = JsVal.json maxRetriesErrorBody ∧
    (getSuggestion outcomes N baseDelay).delays.length = N - 1 ∧
    ∀ k, 1 ≤ k → k < N →
      (getSuggestion outcomes N baseDelay).delays[k - 1]? = some (baseDelay * 2 ^ k) := by
  rw [getSuggestion_all_fail outcomes N baseDelay hN hfail]
  refine ⟨rfl, rfl, backoffSeq_length baseDelay (N - 1) 0, ?_⟩
  intro k h1 h2
  have h' : k - 1 < N - 1 := by omega
  rw [backoffSeq_getElem? baseDelay (N - 1) 0 (k - 1) h']
  have he : 0 + 1 + (k - 1) = k := by omega
  rw [he]

/-- Witness for C1 at the source's own configuration (`maxRetries = 3`,
base delay 1000 ms) and an always-throwing transport: 3 attempts, terminal
max-retries error, delays 2000 ms then 4000 ms. -/
theorem c1_retry_exhaustion_witness :
    (getSuggestion (fun _ => AttemptOutcome.throws) 3 1000).calls = 3 ∧
    (getSuggestion (fun _ => AttemptOutcome.throws) 3 1000).result =
      JsVal.json maxRetriesErrorBody ∧
    (getSuggestion (fun _ => AttemptOutcome.throws) 3 1000).delays[0]? = some 2000 ∧
    (getSuggestion (fun _ => AttemptOutcome.throws) 3 1000).delays[1]? = some 4000 := by
  have h := c1_retry_exhaustion (fun _ => AttemptOutcome.throws) 3 1000 (by decide) (by decide)
    (fun k _ _ => rfl)
  refine ⟨h.1, h.2.1, ?_, ?_⟩
  · have := h.2.2.2 1 (by decide) (by decide)
    simpa using this
  · have := h.2.2.2 2 (by decide) (by decide)
    simpa using this

/-- C2: if attempt `k` is the first attempt that returns a success status
(`k` within the retry budget; stated for all `k ≤ N`, which covers the claim's
`k < N` and, with `k = 1`, a first-attempt success for every `maxRetries`),
the client stops after exactly `k` fetch calls and its result is that
attempt's payload, unchanged.  The loop has exited, so nothing that the caller
does with the payload afterwards (lines 335-358 of the source) can run further
attempts. -/
theorem c2_first_success (outcomes : Nat → AttemptOutcome) (N baseDelay k : Nat)
    (b : GeminiBody) (hk1 : 1 ≤ k) (hkN : k ≤ N)
    (hok : outcomes k = AttemptOutcome.respond true b)
    (hpre : ∀ j, 1 ≤ j → j < k → isOk (outcomes j) = false) :
    (getSuggestion outcomes N baseDelay).calls = k ∧
    (getSuggestion outcomes N baseDelay).result = JsVal.json b := by
  rw [getSuggestion_first_ok outcomes N baseDelay k b hok hpre hk1 hkN]
  exact ⟨rfl, rfl⟩

/-- Witness for C2: first attempt succeeds with `maxRetries = 3`; exactly one
fetch call is made and the payload is returned as-is. -/
theorem c2_first_success_witness :
    (getSuggestion (fun _ => AttemptOutcome.respond true ⟨some "fix", none⟩) 3 1000).calls = 1 ∧
    (getSuggestion (fun _ => AttemptOutcome.respond true ⟨some "fix", none⟩) 3 1000).result =
      JsVal.json ⟨some "fix", none⟩ :=
  c2_first_success (fun _ => AttemptOutcome.respond true ⟨some "fix", none⟩) 3 1000 1
    ⟨some "fix", none⟩ (by decide) (by decide) rfl (fun j h1 h2 => by omega)

/-- C3: with attempts `1..k-1` failed and `k` within the budget, attempt `k+1`
is started iff attempt `k` failed at transport (a rejected promise) or carried
a non-success status, and attempts remained; and a response with a success
status is terminal — its body is handed to the caller unchanged, even when it
carries an application-level `error` field. -/
theorem c3_retry_iff (outcomes : Nat → AttemptOutcome) (N baseDelay k : Nat)
    (hk1 : 1 ≤ k) (hkN : k ≤ N)
    (hpre : ∀ j, 1 ≤ j → j < k → isOk (outcomes j) = false) :
    ((getSuggestion outcomes N baseDelay).calls ≥ k + 1 ↔
      k < N ∧ isOk (outcomes k) = false) ∧
    (∀ b, outcomes k = AttemptOutcome.respond true b →
      (getSuggestion outcomes N baseDelay).calls = k ∧
      (getSuggestion outcomes N baseDelay).result = JsVal.json b) := by
  constructor
  · constructor
    · intro hcalls
      by_cases hfk : isOk (outcomes k) = true
      · obtain ⟨b, hb⟩ := (isOk_iff_exists (outcomes k)).mp hfk
        have := getSuggestion_first_ok outcomes N baseDelay k b hb hpre hk1 hkN
        rw [this] at hcalls
        have hk2 : k ≥ k + 1 := hcalls
        omega
      · have hfk' : isOk (outcomes k) = false := by
          cases h : isOk (outcomes k)
          · rfl
          · exact absurd h hfk
        refine ⟨?_, hfk'⟩
        by_contra hkN'
        have hkeq : k = N := by omega
        have hfail : ∀ j, 1 ≤ j → j ≤ N → isOk (outcomes j) = false := by
          intro j h1 h2
          by_cases hjk : j < k
          · exact hpre j h1 hjk
          · have : j = k := by omega
            rw [this]; exact hfk'
        have := getSuggestion_all_fail outcomes N baseDelay (by omega) hfail
        rw [this] at hcalls
        have hk2 : N ≥ k + 1 := hcalls
        omega
    · rintro ⟨hkN', hfk⟩
      have hpre' : ∀ j, 1 ≤ j → j ≤ k → isOk (outcomes j) = false := by
        intro j h1 h2
        by_cases hjk : j < k
        · exact hpre j h1 hjk
        · have : j = k := by omega
          rw [this]; exact hfk
      by_cases hex : ∃ j, isOk (outcomes j) = true ∧ k < j ∧ j ≤ N
      · obtain ⟨hok0, hkj0, hj0N⟩ := Nat.find_spec hex
        obtain ⟨b, hb⟩ := (isOk_iff_exists _).mp hok0
        have hpre0 : ∀ j, 1 ≤ j → j < Nat.find hex → isOk (outcomes j) = false := by
          intro j h1 h2
          by_cases hjk : j ≤ k
          · exact hpre' j h1 hjk
          · have hnP := Nat.find_min hex h2
            cases h : isOk (outcomes j)
            · rfl
            · exact absurd ⟨h, by omega, by omega⟩ hnP
        rw [getSuggestion_first_ok outcomes N baseDelay (Nat.find hex) b hb hpre0
          (by omega) hj0N]
        show Nat.find hex ≥ k + 1
        omega
      · push_neg at hex
        have hfail : ∀ j, 1 ≤ j → j ≤ N → isOk (outcomes j) = false := by
          intro j h1 h2
          by_cases hjk : j ≤ k
          · exact hpre' j h1 hjk
          · cases h : isOk (outcomes j)
            · rfl
            · exact absurd (hex j h (by omega)) (by omega)
        rw [getSuggestion_all_fail outcomes N baseDelay (by omega) hfail]
        simp
        omega
  · intro b hb
    rw [getSuggestion_first_ok outcomes N baseDelay k b hb hpre hk1 hkN]
    exact ⟨rfl, rfl⟩

/-- Witness for C3 at `k = 2`, `maxRetries = 3`: attempt 1 throws and is
retried; attempt 2 has a success status whose body carries an `error` field —
it is terminal (2 calls, no third attempt) and surfaced as-is. -/
theorem c3_retry_iff_witness :
    ((getSuggestion appErrorOutcomes 3 1000).calls ≥ 2 + 1 ↔
      2 < 3 ∧ isOk (appErrorOutcomes 2) = false) ∧
    ((getSuggestion appErrorOutcomes 3 1000).calls = 2 ∧
      (getSuggestion appErrorOutcomes 3 1000).result =
        JsVal.json ⟨none, some "app error"⟩) := by
  have h := c3_retry_iff appErrorOutcomes 3 1000 2 (by decide) (by decide)
    (fun j h1 h2 => by
      have hj : j = 1 := by omega
      subst hj
      rfl)
  exact ⟨h.1, h.2 ⟨none, some "app error"⟩ rfl⟩

/-- Counterexample to C7 as stated: with the last failed attempt carrying
detail `"quota exceeded"`, the terminal result holds the fixed
`"Max retries reached. Could not fetch response."` object — the final `else`
branch of the source overwrites `result`, so the last attempt's detail is NOT
preserved. -/
theorem c7_counterexample :
    (getSuggestion lastDetailOutcomes 3 1000).result = JsVal.json maxRetriesErrorBody ∧
    (getSuggestion lastDetailOutcomes 3 1000).result ≠
      JsVal.json ⟨none, some "quota exceeded"⟩ := by decide

/-- C7 (amended): after `maxRetries` failed attempts the client returns the
terminal max-retries failure whose detail is the fixed message
`"Max retries reached. Could not fetch response."` — regardless of the detail
of the last failed attempt, which the final `else` assignment discards. -/
theorem c7_amended_max_retries_result (outcomes : Nat → AttemptOutcome)
    (N baseDelay : Nat) (hN : 1 ≤ N)
    (hfail : ∀ k, 1 ≤ k → k ≤ N → isOk (outcomes k) = false) :
    (getSuggestion outcomes N baseDelay).result = JsVal.json maxRetriesErrorBody := by
  rw [getSuggestion_all_fail outcomes N baseDelay hN hfail]

/-- Witness for the amended C7 at the environment of the counterexample. -/
theorem c7_amended_witness :
    (getSuggestion lastDetailOutcomes 3 1000).result = JsVal.json maxRetriesErrorBody :=
  c7_amended_max_retries_result lastDetailOutcomes 3 1000 (by decide)
    (fun k h1 h2 => by interval_cases k <;> rfl)

/-- Folding a chain of edits, each arriving less than one debounce interval
after its predecessor, over a state whose timer was armed by an edit at
`tPrev`: no timer ever fires (every deadline is strictly in the future when
the next edit clears it), so no write is issued; the editor holds the last
value and the timer deadline is the last edit's time plus the interval. -/
theorem foldl_close_edits (durs : Nat → Nat) :
    ∀ (edits : List (Nat × String)) (tPrev : Nat) (s : SyncState),
      s.pending = some (tPrev + debounceMs) →
      closeChainB tPrev edits = true →
      (edits.map (fun p => SyncEvent.localEdit p.1 p.2)).foldl (stepEvent true durs) s =
        { s with editorValue := lastSndD s.editorValue edits,
                 pending := some (lastFstD tPrev edits + debounceMs) } := by
  intro edits
  induction edits with
  | nil =>
    intro tPrev s hp hc
    simp only [List.map_nil, List.foldl_nil, lastSndD, lastFstD]
    rw [← hp]
  | cons p rest ih =>
    obtain ⟨t, v⟩ := p
    intro tPrev s hp hc
    simp only [closeChainB, Bool.and_eq_true, decide_eq_true_eq] at hc
    obtain ⟨⟨h1, h2⟩, hc'⟩ := hc
    simp only [List.map_cons, List.foldl_cons]
    have hstep : stepEvent true durs s (SyncEvent.localEdit t v) =
        { s with editorValue := v, pending := some (t + debounceMs) } := by
      simp only [stepEvent, fireIfDue, hp, onLocalChange]
      rw [if_neg (show ¬ (tPrev + debounceMs ≤ t) by omega)]
    rw [hstep, ih t _ rfl hc']
    rfl

/-- C4: a sequence of `N ≥ 1` local edits in which each consecutive pair
arrives less than the debounce interval apart results in exactly one `setDoc`
write, whose value is the last edit's value (each edit within the quiet period
clears and re-arms the timer, so only the final deadline fires, one debounce
interval after the last edit). -/
theorem c4_debounced_single_write (durs : Nat → Nat) (v0 : String) (t1 : Nat) (v1 : String)
    (rest : List (Nat × String)) (hclose : closeChainB t1 rest = true) :
    runEvents true durs v0 (((t1, v1) :: rest).map (fun p => SyncEvent.localEdit p.1 p.2)) =
      ⟨lastSndD v1 rest, none,
        [⟨lastFstD t1 rest + debounceMs, lastSndD v1 rest, durs 0⟩]⟩ := by
  unfold runEvents
  simp only [List.map_cons, List.foldl_cons]
  have hstep : stepEvent true durs ⟨v0, none, []⟩ (SyncEvent.localEdit t1 v1) =
      ⟨v1, some (t1 + debounceMs), []⟩ := rfl
  rw [hstep, foldl_close_edits durs rest t1 _ rfl hclose]
  simp [flushTimer, fireIfDue, saveEditorContent]

/-- Witness for C4: the spec's own end-to-end scenario — edits `"a"` at 0 ms,
`"ab"` at 500 ms, `"abc"` at 800 ms, debounce 2000 ms: a single write of
`"abc"` at 2800 ms. -/
theorem c4_debounced_single_write_witness :
    runEvents true (fun _ => 0) ""
        [SyncEvent.localEdit 0 "a", SyncEvent.localEdit 500 "ab",
          SyncEvent.localEdit 800 "abc"] =
      ⟨"abc", none, [⟨2800, "abc", 0⟩]⟩ :=
  c4_debounced_single_write (fun _ => 0) "" 0 "a" [(500, "ab"), (800, "abc")] (by decide)

/-- C5 (amended): a remote snapshot whose value equals the current editor
content changes nothing; a remote snapshot whose value is a NON-EMPTY string
different from the editor content overwrites the editor content exactly once
and touches neither the pending debounce timer nor the issued writes.  (The
claim as stated omits the non-emptiness condition; see the counterexample —
the source's truthiness test `docSnap.data().code` rejects `""`.) -/
theorem c5_remote_change (s : SyncState) (docExists : Bool) (code : Option String) :
    (code = some s.editorValue → onSnapshotHandler docExists code s = s) ∧
    (∀ w, code = some w → w ≠ "" → w ≠ s.editorValue → docExists = true →
      onSnapshotHandler docExists code s = { s with editorValue := w }) := by
  constructor
  · intro h
    subst h
    simp [onSnapshotHandler, truthyStr]
  · intro w hw hempty hdiff hex
    subst hw
    subst hex
    simp [onSnapshotHandler, truthyStr, hempty, Ne.symm hdiff]

/-- Counterexample to C5 as stated: the remote value `""` differs from the
local value `"x"`, yet the snapshot handler performs no overwrite at all — the
JavaScript truthiness test on `docSnap.data().code` rejects the empty
string. -/
theorem c5_counterexample :
    onSnapshotHandler true (some "") ⟨"x", some 9999, []⟩ = ⟨"x", some 9999, []⟩ ∧
    ("" : String) ≠ "x" := by decide

/-- Witness for the amended C5: an equal remote value is a no-op; a different,
non-empty remote value overwrites the editor content and leaves the pending
timer and the writes untouched. -/
theorem c5_remote_change_witness :
    onSnapshotHandler true (some "x") ⟨"x", some 5000, []⟩ = ⟨"x", some 5000, []⟩ ∧
    onSnapshotHandler true (some "y") ⟨"x", some 5000, []⟩ = ⟨"y", some 5000, []⟩ := by
  constructor
  · exact (c5_remote_change ⟨"x", some 5000, []⟩ true (some "x")).1 rfl
  · exact (c5_remote_change ⟨"x", some 5000, []⟩ true (some "y")).2 "y" rfl
      (by decide) (by decide) rfl

/-- C6 (amended): when the debounce timer fires (its deadline has passed) with
the database available, the current editor content is persisted
unconditionally — `saveEditorContent` makes no comparison with any
last-persisted value, so even an unchanged value is written again. -/
theorem c6_amended_fire_unconditional (durs : Nat → Nat) (t d : Nat) (s : SyncState)
    (hp : s.pending = some d) (hd : d ≤ t) :
    fireIfDue true durs t s =
      { s with pending := none,
               writes := s.writes ++ [⟨d, s.editorValue, durs s.writes.length⟩] } := by
  simp [fireIfDue, hp, hd, saveEditorContent]

/-- Witness for the amended C6. -/
theorem c6_amended_witness :
    fireIfDue true (fun _ => 7) 2500 ⟨"abc", some 2000, []⟩ =
      ⟨"abc", none, [⟨2000, "abc", 7⟩]⟩ :=
  c6_amended_fire_unconditional (fun _ => 7) 2500 2000 ⟨"abc", some 2000, []⟩ rfl (by decide)

/-- Counterexample to C6 as stated: edit `"a"` at 0 ms (timer fires at 2000 ms
and persists `"a"`), edit `"b"` at 3000 ms, edit `"a"` at 3100 ms; when the
timer fires at 5100 ms the editor content `"a"` equals the value persisted by
the first write, yet a second write of `"a"` is issued — the code has no
`lastPersistedValue` guard, so a timer firing with an unchanged value still
performs a remote write. -/
theorem c6_counterexample :
    (runEvents true (fun _ => 0) ""
        [SyncEvent.localEdit 0 "a", SyncEvent.localEdit 3000 "b",
          SyncEvent.localEdit 3100 "a"]).writes =
      [⟨2000, "a", 0⟩, ⟨5100, "a", 0⟩] := by decide

/-- The snapshot handler never touches the pending timer or the write list. -/
theorem onSnapshotHandler_fields (docExists : Bool) (code : Option String) (s : SyncState) :
    (onSnapshotHandler docExists code s).pending = s.pending ∧
    (onSnapshotHandler docExists code s).writes = s.writes := by
  cases docExists with
  | false => exact ⟨rfl, rfl⟩
  | true =>
    cases code with
    | none => exact ⟨rfl, rfl⟩
    | some c =>
      simp only [onSnapshotHandler]
      split_ifs <;> exact ⟨rfl, rfl⟩

/-- The timer callback only ever appends to the write list. -/
theorem fireIfDue_writes (hasDb : Bool) (durs : Nat → Nat) (t : Nat) (s : SyncState) :
    ∃ l, (fireIfDue hasDb durs t s).writes = s.writes ++ l := by
  unfold fireIfDue saveEditorContent
  cases hp : s.pending with
  | none => exact ⟨[], by simp⟩
  | some d =>
    by_cases hd : d ≤ t
    · cases hasDb with
      | false => exact ⟨[], by simp [hd]⟩
      | true => exact ⟨[⟨d, s.editorValue, durs s.writes.length⟩], by simp [hd]⟩
    · exact ⟨[], by simp [hd]⟩

/-- Event dispatch only ever appends to the write list. -/
theorem stepEvent_writes (hasDb : Bool) (durs : Nat → Nat) (s : SyncState) (e : SyncEvent) :
    ∃ l, (stepEvent hasDb durs s e).writes = s.writes ++ l := by
  cases e with
  | localEdit t v =>
    obtain ⟨l, hl⟩ := fireIfDue_writes hasDb durs t s
    exact ⟨l, by simp only [stepEvent, onLocalChange]; exact hl⟩
  | remoteSnap t docExists code =>
    obtain ⟨l, hl⟩ := fireIfDue_writes hasDb durs t s
    have hs := (onSnapshotHandler_fields docExists code (fireIfDue hasDb durs t s)).2
    exact ⟨l, by simp only [stepEvent]; rw [hs, hl]⟩

/-- Folding a schedule only ever appends to the write list. -/
theorem foldl_writes (hasDb : Bool) (durs : Nat → Nat) :
    ∀ (events : List SyncEvent) (s : SyncState),
      ∃ l, ((events.foldl (stepEvent hasDb durs) s).writes) = s.writes ++ l := by
  intro events
  induction events with
  | nil => intro s; exact ⟨[], by simp⟩
  | cons e es ih =>
    intro s
    obtain ⟨l1, h1⟩ := stepEvent_writes hasDb durs s e
    obtain ⟨l2, h2⟩ := ih (stepEvent hasDb durs s e)
    exact ⟨l1 ++ l2, by simp only [List.foldl_cons, h2, h1, List.append_assoc]⟩

/-- The final flush only ever appends to the write list. -/
theorem flushTimer_writes (hasDb : Bool) (durs : Nat → Nat) (s : SyncState) :
    ∃ l, (flushTimer hasDb durs s).writes = s.writes ++ l := by
  unfold flushTimer
  cases hp : s.pending with
  | none => exact ⟨[], by simp⟩
  | some d => exact fireIfDue_writes hasDb durs d s

/-- C8 (amended): on setup, one immediate, non-debounced persist of the current
editor content is always performed — `setupEditorPersistence` step 3 calls
`saveEditorContent()` unconditionally ("to ensure a document exists") and never
checks whether a remote document already exists.  Whatever events follow, that
bootstrap write is the first write issued. -/
theorem c8_amended_bootstrap (durs : Nat → Nat) (t0 : Nat) (v0 : String)
    (events : List SyncEvent) :
    (setupAndRun true durs t0 v0 events).writes.head? = some ⟨t0, v0, durs 0⟩ := by
  unfold setupAndRun
  obtain ⟨l1, h1⟩ :=
    foldl_writes true durs events (saveEditorContent true t0 (durs 0) ⟨v0, none, []⟩)
  obtain ⟨l2, h2⟩ :=
    flushTimer_writes true durs
      (events.foldl (stepEvent true durs) (saveEditorContent true t0 (durs 0) ⟨v0, none, []⟩))
  rw [h2, h1]
  simp [saveEditorContent]

/-- Counterexample to C8 as stated: the remote document exists (the snapshot
listener delivers it), yet the immediate bootstrap persist of the local value
happened anyway — the source performs no existence check before its initial
`saveEditorContent()` call. -/
theorem c8_counterexample :
    setupAndRun true (fun _ => 0) 0 "boot" [SyncEvent.remoteSnap 5 true (some "remoteDoc")] =
      ⟨"remoteDoc", none, [⟨0, "boot", 0⟩]⟩ ∧
    (setupAndRun true (fun _ => 0) 0 "boot"
        [SyncEvent.remoteSnap 5 true (some "remoteDoc")]).writes ≠ [] := by decide

theorem mem_of_mem_getLast? {α : Type} {l : List α} {x : α} (h : x ∈ l.getLast?) : x ∈ l := by
  obtain ⟨hne, rfl⟩ := List.mem_getLast?_eq_getLast h
  exact List.getLast_mem hne

theorem fireIfDue_inv (durs : Nat → Nat) (hdur : ∀ i, durs i ≤ debounceMs)
    (t t' : Nat) (hle : t ≤ t') (s : SyncState) (h : syncInv t s) :
    syncInv t' (fireIfDue true durs t' s) := by
  obtain ⟨hch, hstart, hpend, hdurw⟩ := h
  unfold fireIfDue
  cases hp : s.pending with
  | none =>
    refine ⟨hch, fun w hw => le_trans (hstart w hw) hle, ?_, hdurw⟩
    intro d hd
    rw [hp] at hd
    cases hd
  | some d =>
    by_cases hdt : d ≤ t'
    · simp only [if_pos hdt, saveEditorContent, if_pos]
      refine ⟨?_, ?_, ?_, ?_⟩
      · refine List.Chain'.append hch (List.chain'_singleton _) ?_
        intro x hx y hy
        simp only [List.head?_cons, Option.mem_def, Option.some.injEq] at hy
        subst hy
        exact hpend d hp x (mem_of_mem_getLast? hx)
      · intro w hw
        rcases List.mem_append.mp hw with hw | hw
        · exact le_trans (hstart w hw) hle
        · simp only [List.mem_singleton] at hw
          subst hw
          exact hdt
      · intro d' hd'
        cases hd'
      · intro w hw
        rcases List.mem_append.mp hw with hw | hw
        · exact hdurw w hw
        · simp only [List.mem_singleton] at hw
          subst hw
          exact hdur _
    · simp only [if_neg hdt]
      refine ⟨hch, fun w hw => le_trans (hstart w hw) hle, ?_, hdurw⟩
      intro d' hd'
      rw [hp] at hd'
      cases hd'
      exact hpend d hp

theorem stepEvent_inv (durs : Nat → Nat) (hdur : ∀ i, durs i ≤ debounceMs)
    (t : Nat) (s : SyncState) (e : SyncEvent)
    (hle : t ≤ eventTime e) (h : syncInv t s) :
    syncInv (eventTime e) (stepEvent true durs s e) := by
  cases e with
  | localEdit te v =>
    obtain ⟨hch, hstart, hpend, hdurw⟩ :=
      fireIfDue_inv durs hdur t te hle s h
    refine ⟨hch, hstart, ?_, hdurw⟩
    intro d hd w hw
    have hd' : d = te + debounceMs := by
      simpa [stepEvent, onLocalChange] using hd.symm
    subst hd'
    have := hstart w hw
    unfold debounceMs at *
    omega
  | remoteSnap te docExists code =>
    obtain ⟨hch, hstart, hpend, hdurw⟩ :=
      fireIfDue_inv durs hdur t te hle s h
    have hfields := onSnapshotHandler_fields docExists code (fireIfDue true durs te s)
    refine ⟨?_, ?_, ?_, ?_⟩
    · show List.Chain' sepRel (onSnapshotHandler docExists code (fireIfDue true durs te s)).writes
      rw [hfields.2]
      exact hch
    · intro w hw
      rw [show (stepEvent true durs s (SyncEvent.remoteSnap te docExists code)).writes =
            (fireIfDue true durs te s).writes from hfields.2] at hw
      exact hstart w hw
    · intro d hd w hw
      rw [show (stepEvent true durs s (SyncEvent.remoteSnap te docExists code)).pending =
            (fireIfDue true durs te s).pending from hfields.1] at hd
      rw [show (stepEvent true durs s (SyncEvent.remoteSnap te docExists code)).writes =
            (fireIfDue true durs te s).writes from hfields.2] at hw
      exact hpend d hd w hw
    · intro w hw
      rw [show (stepEvent true durs s (SyncEvent.remoteSnap te docExists code)).writes =
            (fireIfDue true durs te s).writes from hfields.2] at hw
      exact hdurw w hw

theorem foldl_inv (durs : Nat → Nat) (hdur : ∀ i, durs i ≤ debounceMs) :
    ∀ (events : List SyncEvent) (t : Nat) (s : SyncState),
      timesSortedB t events = true → syncInv t s →
      ∃ t', syncInv t' (events.foldl (stepEvent true durs) s) := by
  intro events
  induction events with
  | nil =>
    intro t s _ h
    exact ⟨t, h⟩
  | cons e es ih =>
    intro t s hsort h
    simp only [timesSortedB, Bool.and_eq_true, decide_eq_true_eq] at hsort
    obtain ⟨hte, hsort'⟩ := hsort
    exact ih (eventTime e) (stepEvent true durs s e) hsort'
      (stepEvent_inv durs hdur t s e hte h)

theorem flushTimer_inv (durs : Nat → Nat) (hdur : ∀ i, durs i ≤ debounceMs)
    (t : Nat) (s : SyncState) (h : syncInv t s) :
    List.Chain' sepRel (flushTimer true durs s).writes ∧
    ∀ w ∈ (flushTimer true durs s).writes, w.durMs ≤ debounceMs := by
  obtain ⟨hch, hstart, hpend, hdurw⟩ := h
  unfold flushTimer fireIfDue
  cases hp : s.pending with
  | none => exact ⟨hch, hdurw⟩
  | some d =>
    simp only [if_pos (le_refl d), saveEditorContent, if_pos]
    constructor
    · refine List.Chain'.append hch (List.chain'_singleton _) ?_
      intro x hx y hy
      simp only [List.head?_cons, Option.mem_def, Option.some.injEq] at hy
      subst hy
      exact hpend d hp x (mem_of_mem_getLast? hx)
    · intro w hw
      rcases List.mem_append.mp hw with hw | hw
      · exact hdurw w hw
      · simp only [List.mem_singleton] at hw
        subst hw
        exact hdur _

theorem pairwise_disjoint_of_sep :
    ∀ (l : List WriteRec), l.Pairwise sepRel → (∀ w ∈ l, w.durMs ≤ debounceMs) →
      l.Pairwise writesDisjoint := by
  intro l
  induction l with
  | nil => intro _ _; exact List.Pairwise.nil
  | cons a l ih =>
    intro hp hdur
    obtain ⟨ha, hp'⟩ := List.pairwise_cons.mp hp
    refine List.Pairwise.cons ?_ (ih hp' (fun w hw => hdur w (List.mem_cons_of_mem a hw)))
    intro b hb
    have hsep := ha b hb
    have hda := hdur a (List.mem_cons_self a l)
    unfold sepRel at hsep
    unfold writesDisjoint
    left
    omega

/-- C9 (amended): with every `setDoc` latency bounded by the debounce interval
(2000 ms), no two persists of a store instance ever overlap: consecutive timer
fires are at least one debounce interval apart (each fire's deadline postdates
every earlier write by the full interval), so each write completes before the
next starts.  Without that latency bound the property fails — the source has
no single-flight guard; see the counterexample. -/
theorem c9_amended_no_overlap (durs : Nat → Nat) (t0 : Nat) (v0 : String)
    (events : List SyncEvent)
    (hsort : timesSortedB t0 events = true)
    (hdur : ∀ i, durs i ≤ debounceMs) :
    (setupAndRun true durs t0 v0 events).writes.Pairwise writesDisjoint := by
  unfold setupAndRun
  have hinit : syncInv t0 (saveEditorContent true t0 (durs 0) ⟨v0, none, []⟩) := by
    refine ⟨?_, ?_, ?_, ?_⟩
    · simp [saveEditorContent]
    · intro w hw
      simp only [saveEditorContent, if_pos, List.nil_append, List.mem_singleton] at hw
      subst hw
      exact le_refl t0
    · intro d hd
      cases hd
    · intro w hw
      simp only [saveEditorContent, if_pos, List.nil_append, List.mem_singleton] at hw
      subst hw
      exact hdur 0
  obtain ⟨t', hfold⟩ := foldl_inv durs hdur events t0 _ hsort hinit
  obtain ⟨hch, hdurw⟩ := flushTimer_inv durs hdur t' _ hfold
  exact pairwise_disjoint_of_sep _ (List.chain'_iff_pairwise.mp hch) hdurw

/-- Witness for the amended C9: two debounced writes plus the bootstrap write,
all with latency 100 ms — pairwise non-overlapping. -/
theorem c9_amended_witness :
    (setupAndRun true (fun _ => 100) 0 "v"
        [SyncEvent.localEdit 10 "a", SyncEvent.localEdit 2100 "b"]).writes.Pairwise
      writesDisjoint :=
  c9_amended_no_overlap (fun _ => 100) 0 "v"
    [SyncEvent.localEdit 10 "a", SyncEvent.localEdit 2100 "b"] (by decide)
    (fun _ => (by decide : (100 : Nat) ≤ debounceMs))

/-- Counterexample to C9 as stated: edits at 10 ms and 2100 ms each pass their
own debounce window; the write started at the first fire (2010 ms) takes
3000 ms, so it is still outstanding at 5010 ms when the second write starts at
4100 ms — two persists of the same store overlap; the source has no
single-flight flag. -/
theorem c9_counterexample :
    (setupAndRun true (fun i => if i = 1 then 3000 else 5) 0 "init"
        [SyncEvent.localEdit 10 "a", SyncEvent.localEdit 2100 "b"]).writes =
      [⟨0, "init", 5⟩, ⟨2010, "a", 3000⟩, ⟨4100, "b", 5⟩] ∧
    ¬ writesDisjoint ⟨2010, "a", 3000⟩ ⟨4100, "b", 5⟩ := by decide

/-- C10: in each of the four sourced run-code click handlers, whatever the
outcome of the request — success payload, error payload in the body,
non-success HTTP status, or a thrown network/JSON-parsing error — the run
button's `disabled` flag is `false` when handling completes: every path exits
through the handler's `finally`, which re-enables the button. -/
theorem c10_run_button_reenabled :
    (∀ o : FetchResult BodyA, (runClickA o).runDisabled = false) ∧
    (∀ o : FetchResult PlainBody, (runClickB o).runDisabled = false) ∧
    (∀ o : FetchResult PlainBody, (runClickC o).runDisabled = false) ∧
    (∀ (sel : List String) (o : FetchResult BodyD), (runClickD sel o).runDisabled = false) :=
  ⟨fun _ => rfl, fun _ => rfl, fun _ => rfl, fun _ _ => rfl⟩
